import Mathlib

/-!
Shallow embedding of the authentication and rate-limiting subsystem of the
repository (src/auth.py): the key store (DEMO_KEYS, API_KEYS, create_api_key,
get_key_info), the auth gate (verify_api_key, require_api_key), and the
sliding-window rate limiter (check_rate_limit), together with theorems about
their behaviour.

Modelling choices:
  - Python dicts holding key records are modelled as association lists with
    first-match lookup; insertion is modelled by consing, so a later insert
    for the same key shadows the earlier one, matching dict overwrite.
  - datetime.utcnow().isoformat() is an opaque string parameter.
  - time.time() values are rationals.
  - secrets.token_urlsafe is modelled by passing the generated key string as
    an explicit argument.
  - HTTPException is a record of status code and detail string; raising is
    modelled by the Except monad.
  - The demo-key dicts in the source have four entries while issued-key
    dicts have six; the two extra entries are modelled as Option-valued
    fields that are none exactly when the Python dict lacks the entry.
-/

namespace AuthModel

/-- Record stored for one API key: the value dict of DEMO_KEYS / API_KEYS in
src/auth.py. requests_today and last_request are absent (none) for the demo
keys; for issued keys requests_today is some 0 and last_request is some none,
i.e. the entry is present and holds Python None. -/
structure KeyData where
  name : String
  tier : String
  rate_limit : Nat
  created : String
  requests_today : Option Nat
  last_request : Option (Option String)
deriving DecidableEq

/-- HTTPException(status_code=..., detail=...) raised by the auth gate. -/
structure HTTPException where
  status_code : Nat
  detail : String
deriving DecidableEq

/-- The fixed secret of the pre-seeded free-tier demo key. -/
def demoFreeSecret : String := "demo-free-key-2026"

/-- The fixed secret of the pre-seeded pro-tier demo key. -/
def demoProSecret : String := "demo-pro-key-2026"

/-- DEMO_KEYS from src/auth.py, parametrised by the module-load timestamp
string produced by datetime.utcnow().isoformat(). -/
def DEMO_KEYS (created : String) : List (String × KeyData) :=
  [(demoFreeSecret,
    { name := "Demo Free User", tier := "free", rate_limit := 10,
      created := created, requests_today := none, last_request := none }),
   (demoProSecret,
    { name := "Demo Pro User", tier := "pro", rate_limit := 100,
      created := created, requests_today := none, last_request := none })]

/-- The tier-to-limit dict local to create_api_key in src/auth.py. -/
def rate_limits : List (String × Nat) :=
  [("free", 10), ("starter", 60), ("pro", 300), ("enterprise", 1000)]

/-- create_api_key(name, tier) from src/auth.py. The generated secret and
the creation timestamp are passed explicitly; the API_KEYS store is threaded
as state. Returns the response dict, modelled as the api_key string paired
with the stored metadata record, together with the updated store. -/
def create_api_key (name tier key created : String)
    (st : List (String × KeyData)) :
    (String × KeyData) × List (String × KeyData) :=
  let key_data : KeyData :=
    { name := name, tier := tier,
      rate_limit := (rate_limits.lookup tier).getD 10,
      created := created, requests_today := some 0,
      last_request := some none }
  ((key, key_data), (key, key_data) :: st)

/-- get_key_info(api_key) from src/auth.py: demo keys first, then the
registered store, else None. -/
def get_key_info (created : String) (st : List (String × KeyData))
    (api_key : String) : Option KeyData :=
  match (DEMO_KEYS created).lookup api_key with
  | some d => some d
  | none =>
    match st.lookup api_key with
    | some d => some d
    | none => none

/-- Python truthiness test applied to the presented header value: the header
may be absent (None) or be a string; `not api_key` is true exactly when the
value is None or the empty string. -/
def pythonFalsy (api_key : Option String) : Bool :=
  match api_key with
  | none => true
  | some s => decide (s = "")

/-- The HTTPException raised by require_api_key when no key is presented. -/
def missingKeyExc : HTTPException :=
  { status_code := 401,
    detail := "API key required. Get a free key at /api/register or use demo key: demo-free-key-2026" }

/-- The HTTPException raised by require_api_key for an unresolvable key. -/
def invalidKeyExcRequired : HTTPException :=
  { status_code := 401, detail := "Invalid API key" }

/-- The HTTPException raised by verify_api_key for an unresolvable key. -/
def invalidKeyExcOptional : HTTPException :=
  { status_code := 401,
    detail := "Invalid API key. Get a free key at /api/register" }

/-- verify_api_key from src/auth.py: optional authentication. Absent or
empty key is allowed through as None; a presented key must resolve. -/
def verify_api_key (created : String) (st : List (String × KeyData))
    (api_key : Option String) : Except HTTPException (Option KeyData) :=
  if pythonFalsy api_key then Except.ok none
  else
    match get_key_info created st (api_key.getD "") with
    | none => Except.error invalidKeyExcOptional
    | some ki => Except.ok (some ki)

/-- require_api_key from src/auth.py: mandatory authentication. -/
def require_api_key (created : String) (st : List (String × KeyData))
    (api_key : Option String) : Except HTTPException KeyData :=
  if pythonFalsy api_key then Except.error missingKeyExc
  else
    match get_key_info created st (api_key.getD "") with
    | none => Except.error invalidKeyExcRequired
    | some ki => Except.ok ki

/-- check_rate_limit(api_key, limit) from src/auth.py, for one key: the
timestamp list REQUEST_COUNTS[api_key] is threaded as state (a key never
seen before starts from the empty list). Returns the boolean decision and
the updated list. The filter keeps exactly the timestamps t with
minute_ago < t, as in the source. -/
def check_rate_limit (now : ℚ) (limit : Nat) (ts : List ℚ) :
    Bool × List ℚ :=
  let minute_ago := now - 60
  let cleaned := ts.filter (fun t => decide (minute_ago < t))
  if limit ≤ cleaned.length then (false, cleaned)
  else (true, cleaned ++ [now])

/-- Claim C1's algorithm, written from the claim's words: first evict every
timestamp strictly older than the cutoff t - 60 (keeping those ≥ t - 60),
then deny without appending when the post-eviction count is ≥ limit, else
append and admit. -/
def claimEvictAdmit (now : ℚ) (limit : Nat) (ts : List ℚ) :
    Bool × List ℚ :=
  let kept := ts.filter (fun t => !(decide (t < now - 60)))
  if limit ≤ kept.length then (false, kept)
  else (true, kept ++ [now])

/-- Amended C1 algorithm: evict every timestamp ≤ t - 60 (equivalently,
retain exactly the timestamps strictly newer than t - 60), then deny
without appending when the post-eviction count is ≥ limit, else append
and admit. -/
def amendedEvictAdmit (now : ℚ) (limit : Nat) (ts : List ℚ) :
    Bool × List ℚ :=
  let kept := ts.filter (fun t => !(decide (t ≤ now - 60)))
  if limit ≤ kept.length then (false, kept)
  else (true, kept ++ [now])

/-- Process a list of call times through check_rate_limit with a fixed
limit, starting from the given per-key timestamp state, returning the
final state. -/
def runFrom (limit : Nat) (st : List ℚ) (times : List ℚ) : List ℚ :=
  times.foldl (fun s u => (check_rate_limit u limit s).2) st

/-- Process a list of call times through check_rate_limit with a fixed
limit, starting from the given per-key timestamp state, returning the
times of the calls that were admitted (returned true), in call order. -/
def admittedTimes (limit : Nat) : List ℚ → List ℚ → List ℚ
  | _, [] => []
  | st, u :: rest =>
    let r := check_rate_limit u limit st
    if r.1 then u :: admittedTimes limit r.2 rest
    else admittedTimes limit r.2 rest

/-- Bool predicate for membership of the 60-second span starting at a. -/
def inSpan (a s : ℚ) : Bool :=
  decide (a ≤ s) && decide (s < a + 60)

/-- The metadata record stored for an issued key, as a function of owner
name, tier and creation time only — it does not take the secret. -/
def issuedKeyData (name tier created : String) : KeyData :=
  { name := name, tier := tier,
    rate_limit := (rate_limits.lookup tier).getD 10,
    created := created, requests_today := some 0,
    last_request := some none }

/-- A stored record mentions a secret string when one of its string-valued
entries equals it: the owner name, the tier, the creation timestamp, or a
present last_request value (the remaining fields hold numbers). -/
def mentionsSecret (d : KeyData) (s : String) : Prop :=
  d.name = s ∨ d.tier = s ∨ d.created = s ∨ d.last_request = some (some s)

/-- The tier-to-limit mapping of the amended claim C5: the four-row table
of create_api_key, every other tier name (including demo-free and
demo-pro) defaulting to the free-tier limit 10. -/
def specTierLimit (tier : String) : Nat :=
  if tier = "free" then 10
  else if tier = "starter" then 60
  else if tier = "pro" then 300
  else if tier = "enterprise" then 1000
  else 10

end AuthModel

namespace AuthModel

/-- Claim C1 is false as stated: at state [0] with limit 1 and call time 60,
the claim's algorithm (evict only timestamps strictly older than the cutoff
t - 60) retains the timestamp 0 = 60 - 60 and denies, while check_rate_limit
evicts it (the source keeps only timestamps strictly greater than the
cutoff) and admits, appending 60. -/
theorem check_rate_limit_boundary_counterexample :
    check_rate_limit 60 1 [0] = (true, [60]) ∧
    claimEvictAdmit 60 1 [0] = (false, [0]) := by
  constructor <;> norm_num [check_rate_limit, claimEvictAdmit, List.filter_cons]

/-- Claim C1 (amended): for every limit, call time and timestamp state,
check_rate_limit first evicts every timestamp less than or equal to the
cutoff t - 60 (retaining exactly the strictly newer ones), then returns
false without appending when the post-eviction count is at least the limit,
and otherwise appends the call time and returns true. -/
theorem check_rate_limit_eq_amendedEvictAdmit (now : ℚ) (limit : Nat)
    (ts : List ℚ) : check_rate_limit now limit ts = amendedEvictAdmit now limit ts := by
  have hf : ts.filter (fun t => decide (now - 60 < t)) =
      ts.filter (fun t => !(decide (t ≤ now - 60))) := by
    apply List.filter_congr
    intro x _
    rw [← decide_not]
    exact decide_eq_decide.mpr not_le.symm
  simp only [check_rate_limit, amendedEvictAdmit, hf]

/-- Claim C5 is false as stated: the tier table inside create_api_key has no
demo-pro row, so issuing a key with the tier name demo-pro falls through to
the default and yields rate_limit 10, not the 100 the claim requires. -/
theorem create_api_key_demo_pro_counterexample :
    ((create_api_key "x" "demo-pro" "k" "c" []).1.2).rate_limit = 10 ∧
    ((create_api_key "x" "demo-pro" "k" "c" []).1.2).rate_limit ≠ 100 := by
  constructor
  · rfl
  · decide

/-- Claim C5 (amended): for every owner name, create_api_key sets
rate_limit to the table value of the requested tier — free 10, starter 60,
pro 300, enterprise 1000 — and to 10 (the free-tier limit) for every other
tier name, including demo-free and demo-pro. -/
theorem create_api_key_rate_limit_eq_specTierLimit
    (name tier key created : String) (st : List (String × KeyData)) :
    ((create_api_key name tier key created st).1.2).rate_limit = specTierLimit tier := by
  show (rate_limits.lookup tier).getD 10 = specTierLimit tier
  by_cases h1 : tier = "free"
  · subst h1; rfl
  by_cases h2 : tier = "starter"
  · subst h2; rfl
  by_cases h3 : tier = "pro"
  · subst h3; rfl
  by_cases h4 : tier = "enterprise"
  · subst h4; rfl
  have e1 : (tier == "free") = false := by simp [h1]
  have e2 : (tier == "starter") = false := by simp [h2]
  have e3 : (tier == "pro") = false := by simp [h3]
  have e4 : (tier == "enterprise") = false := by simp [h4]
  simp [rate_limits, List.lookup, e1, e2, e3, e4, specTierLimit, h1, h2, h3, h4]

/-- Claim C6: for every creation timestamp and every state of the issued-key
store (hence after any sequence of operations, and in particular with no
prior issuance), get_key_info resolves the two fixed demo secrets to their
pre-seeded metadata, with rate_limit 10 for the free demo key and 100 for
the pro demo key; no operation can delete or change them, since resolution
consults the constant DEMO_KEYS table before the store. -/
theorem demo_keys_always_resolve (created : String)
    (st : List (String × KeyData)) :
    get_key_info created st demoFreeSecret =
      some { name := "Demo Free User", tier := "free", rate_limit := 10,
             created := created, requests_today := none, last_request := none } ∧
    get_key_info created st demoProSecret =
      some { name := "Demo Pro User", tier := "pro", rate_limit := 100,
             created := created, requests_today := none, last_request := none } := by
  constructor <;> rfl

/-- Unfolding equation for check_rate_limit, exposing the filter and the
branch on the post-eviction count. -/
theorem check_rate_limit_eq (now : ℚ) (limit : Nat) (ts : List ℚ) :
    check_rate_limit now limit ts =
      if limit ≤ (ts.filter (fun t => decide (now - 60 < t))).length
      then (false, ts.filter (fun t => decide (now - 60 < t)))
      else (true, ts.filter (fun t => decide (now - 60 < t)) ++ [now]) := rfl

/-- Every timestamp retained by a check_rate_limit call was either already
stored or is the call time itself. -/
theorem mem_check_rate_limit {now : ℚ} {limit : Nat} {ts : List ℚ} {e : ℚ}
    (h : e ∈ (check_rate_limit now limit ts).2) : e ∈ ts ∨ e = now := by
  rw [check_rate_limit_eq] at h
  split at h
  · exact Or.inl (List.mem_filter.mp h).1
  · rcases List.mem_append.mp h with h1 | h1
    · exact Or.inl (List.mem_filter.mp h1).1
    · exact Or.inr (List.mem_singleton.mp h1)

/-- Every timestamp retained after a check_rate_limit call at time now is
strictly less than 60 seconds old. -/
theorem check_rate_limit_fresh (now : ℚ) (limit : Nat) (ts : List ℚ) :
    ∀ e ∈ (check_rate_limit now limit ts).2, now - e < 60 := by
  intro e he
  rw [check_rate_limit_eq] at he
  have hfil : ∀ x ∈ ts.filter (fun t => decide (now - 60 < t)), now - x < 60 := by
    intro x hx
    have := (List.mem_filter.mp hx).2
    rw [decide_eq_true_eq] at this
    linarith
  split at he
  · exact hfil e he
  · rcases List.mem_append.mp he with h1 | h1
    · exact hfil e h1
    · rw [List.mem_singleton.mp h1]
      norm_num

/-- check_rate_limit preserves sortedness of the timestamp list when the
call time is an upper bound of the stored timestamps. -/
theorem check_rate_limit_sorted {now : ℚ} {limit : Nat} {ts : List ℚ}
    (h1 : List.Sorted (· ≤ ·) ts) (h2 : ∀ e ∈ ts, e ≤ now) :
    List.Sorted (· ≤ ·) (check_rate_limit now limit ts).2 := by
  have hfs : List.Sorted (· ≤ ·) (ts.filter (fun t => decide (now - 60 < t))) :=
    List.Pairwise.sublist (List.filter_sublist ts) h1
  rw [check_rate_limit_eq]
  split
  · exact hfs
  · rw [List.Sorted, List.pairwise_append]
    refine ⟨hfs, List.pairwise_singleton _ _, ?_⟩
    intro x hx y hy
    rw [List.mem_singleton.mp hy]
    exact h2 x (List.mem_filter.mp hx).1

/-- When check_rate_limit admits, the retained count is at most the limit. -/
theorem check_rate_limit_len {now : ℚ} {limit : Nat} {ts : List ℚ}
    (h : (check_rate_limit now limit ts).1 = true) :
    (check_rate_limit now limit ts).2.length ≤ limit := by
  rw [check_rate_limit_eq] at h ⊢
  split at h
  · cases h
  · rename_i hlen
    rw [if_neg hlen, List.length_append, List.length_singleton]
    omega

/-- runFrom over an empty call list is the identity on the state. -/
theorem runFrom_nil (limit : Nat) (st : List ℚ) : runFrom limit st [] = st := rfl

/-- runFrom processes the head call first. -/
theorem runFrom_cons (limit : Nat) (st : List ℚ) (u : ℚ) (rest : List ℚ) :
    runFrom limit st (u :: rest) =
      runFrom limit (check_rate_limit u limit st).2 rest := rfl

/-- Every timestamp in the state after a run was in the initial state or is
one of the call times. -/
theorem mem_runFrom (limit : Nat) :
    ∀ (times st : List ℚ) (e : ℚ), e ∈ runFrom limit st times →
      e ∈ st ∨ e ∈ times := by
  intro times
  induction times with
  | nil => intro st e h; exact Or.inl h
  | cons u rest ih =>
    intro st e h
    rw [runFrom_cons] at h
    rcases ih _ e h with h1 | h1
    · rcases mem_check_rate_limit h1 with h2 | h2
      · exact Or.inl h2
      · exact Or.inr (h2 ▸ List.mem_cons_self u rest)
    · exact Or.inr (List.mem_cons_of_mem u h1)

/-- A run over non-decreasing call times keeps the state sorted, provided
the initial state is sorted and lies below all call times. -/
theorem runFrom_sorted (limit : Nat) :
    ∀ (times st : List ℚ), List.Sorted (· ≤ ·) times →
      List.Sorted (· ≤ ·) st →
      (∀ e ∈ st, ∀ u ∈ times, e ≤ u) →
      List.Sorted (· ≤ ·) (runFrom limit st times) := by
  intro times
  induction times with
  | nil => intro st _ hst _; exact hst
  | cons u rest ih =>
    intro st htimes hst hcross
    rw [runFrom_cons]
    have hstu : ∀ e ∈ st, e ≤ u := fun e he =>
      hcross e he u (List.mem_cons_self u rest)
    refine ih _ htimes.of_cons (check_rate_limit_sorted hst hstu) ?_
    intro e he w hw
    rcases mem_check_rate_limit he with h2 | h2
    · exact hcross e h2 w (List.mem_cons_of_mem u hw)
    · exact h2 ▸ List.rel_of_sorted_cons htimes w hw

/-- Claim C2: along any sequence of check_rate_limit calls for one key at a
fixed limit, with a non-decreasing clock, the state after every call
contains only timestamps strictly fresher than 60 seconds relative to that
call time, is sorted non-decreasingly, and its size is at most the limit
whenever that call admitted. -/
theorem check_rate_limit_invariants (L : Nat) (times : List ℚ) (t : ℚ)
    (hs : List.Sorted (· ≤ ·) (times ++ [t])) :
    ((check_rate_limit t L (runFrom L [] times)).2.all
        (fun e => decide (t - e < 60)) = true) ∧
    List.Sorted (· ≤ ·) (check_rate_limit t L (runFrom L [] times)).2 ∧
    ((check_rate_limit t L (runFrom L [] times)).1 = true →
      (check_rate_limit t L (runFrom L [] times)).2.length ≤ L) := by
  have hsplit := List.pairwise_append.mp hs
  have hts : List.Sorted (· ≤ ·) times := hsplit.1
  have hle : ∀ u ∈ times, u ≤ t := fun u hu =>
    hsplit.2.2 u hu t (List.mem_singleton.mpr rfl)
  have hps : List.Sorted (· ≤ ·) (runFrom L [] times) :=
    runFrom_sorted L times [] hts (List.sorted_nil) (by intro e he; cases he)
  have hpe : ∀ e ∈ runFrom L [] times, e ≤ t := by
    intro e he
    rcases mem_runFrom L times [] e he with h | h
    · cases h
    · exact hle e h
  refine ⟨?_, check_rate_limit_sorted hps hpe, fun h => check_rate_limit_len h⟩
  rw [List.all_eq_true]
  intro e he
  rw [decide_eq_true_eq]
  exact check_rate_limit_fresh t L _ e he

/-- Witness for claim C2 at the concrete trace [0, 1] with final call at
time 2 and limit 1. -/
theorem check_rate_limit_invariants_witness :
    List.Sorted (· ≤ ·) ([(0:ℚ), 1] ++ [2]) ∧
    (((check_rate_limit 2 1 (runFrom 1 [] [0, 1])).2.all
        (fun e => decide ((2:ℚ) - e < 60)) = true) ∧
     List.Sorted (· ≤ ·) (check_rate_limit 2 1 (runFrom 1 [] [0, 1])).2 ∧
     ((check_rate_limit 2 1 (runFrom 1 [] [0, 1])).1 = true →
       (check_rate_limit 2 1 (runFrom 1 [] [0, 1])).2.length ≤ 1)) :=
  ⟨by decide, check_rate_limit_invariants 1 [0, 1] 2 (by decide)⟩

/-- admittedTimes over an empty call list is empty. -/
theorem admittedTimes_nil (limit : Nat) (st : List ℚ) :
    admittedTimes limit st [] = [] := rfl

/-- Unfolding equation for admittedTimes on a head call. -/
theorem admittedTimes_cons (limit : Nat) (st : List ℚ) (u : ℚ)
    (rest : List ℚ) :
    admittedTimes limit st (u :: rest) =
      if (check_rate_limit u limit st).1
      then u :: admittedTimes limit (check_rate_limit u limit st).2 rest
      else admittedTimes limit (check_rate_limit u limit st).2 rest := rfl

/-- The admitted call times form a sublist of the call times. -/
theorem admittedTimes_sublist (limit : Nat) :
    ∀ (times st : List ℚ), (admittedTimes limit st times).Sublist times := by
  intro times
  induction times with
  | nil => intro st; exact List.Sublist.refl []
  | cons u rest ih =>
    intro st
    rw [admittedTimes_cons]
    split
    · exact List.Sublist.cons₂ u (ih _)
    · exact List.Sublist.cons u (ih _)

/-- The eviction filter of a call at time u strictly before the end of the
span starting at a drops no timestamp of that span. -/
theorem countP_inSpan_filter (a u : ℚ) (st : List ℚ) (h : u < a + 60) :
    (st.filter (fun t => decide (u - 60 < t))).countP (inSpan a) =
      st.countP (inSpan a) := by
  rw [List.countP_filter]
  apply List.countP_congr
  intro x _
  simp only [inSpan, Bool.and_eq_true, decide_eq_true_eq]
  constructor
  · rintro ⟨h1, _⟩
    exact h1
  · intro h1
    exact ⟨h1, by linarith [h1.1]⟩

/-- Window-bound invariant for the sliding-window limiter: along
non-decreasing call times, the number of admitted calls inside any fixed
60-second span, plus the number of stored timestamps inside that span,
never exceeds the limit, provided the initial state respects the bound. -/
theorem admittedTimes_window_aux (limit : Nat) (a : ℚ) :
    ∀ (times st : List ℚ), List.Sorted (· ≤ ·) times →
      st.countP (inSpan a) ≤ limit →
      (admittedTimes limit st times).countP (inSpan a) +
        st.countP (inSpan a) ≤ limit := by
  intro times
  induction times with
  | nil =>
    intro st _ hst
    simpa [admittedTimes_nil] using hst
  | cons u rest ih =>
    intro st htimes hst
    by_cases hu : a + 60 ≤ u
    · have hz : (admittedTimes limit st (u :: rest)).countP (inSpan a) = 0 := by
        have hsub := admittedTimes_sublist limit (u :: rest) st
        have hall : (u :: rest).countP (inSpan a) = 0 := by
          rw [List.countP_eq_zero]
          intro x hx
          have hux : u ≤ x := by
            rcases List.mem_cons.mp hx with h | h
            · exact h ▸ le_refl u
            · exact List.rel_of_sorted_cons htimes x h
          simp only [inSpan, Bool.and_eq_true, decide_eq_true_eq]
          rintro ⟨_, h2⟩
          linarith
        have hcle := List.Sublist.countP_le (inSpan a) hsub
        omega
      omega
    · push_neg at hu
      have hclean := countP_inSpan_filter a u st hu
      by_cases hlen :
          limit ≤ (st.filter (fun t => decide (u - 60 < t))).length
      · have h1 : (check_rate_limit u limit st).1 = false := by
          rw [check_rate_limit_eq, if_pos hlen]
        have h2 : (check_rate_limit u limit st).2 =
            st.filter (fun t => decide (u - 60 < t)) := by
          rw [check_rate_limit_eq, if_pos hlen]
        rw [admittedTimes_cons, h1, if_neg (by simp), h2]
        have ihres := ih (st.filter (fun t => decide (u - 60 < t)))
          htimes.of_cons (by rw [hclean]; exact hst)
        omega
      · have h1 : (check_rate_limit u limit st).1 = true := by
          rw [check_rate_limit_eq, if_neg hlen]
        have h2 : (check_rate_limit u limit st).2 =
            st.filter (fun t => decide (u - 60 < t)) ++ [u] := by
          rw [check_rate_limit_eq, if_neg hlen]
        rw [admittedTimes_cons, h1, if_pos rfl, h2]
        have hlt : (st.filter (fun t => decide (u - 60 < t))).length < limit :=
          Nat.not_le.mp hlen
        have hcl := List.countP_le_length (inSpan a)
          (l := st.filter (fun t => decide (u - 60 < t)))
        have hone : ([u]).countP (inSpan a) =
            if inSpan a u = true then 1 else 0 := by
          simp [List.countP_cons]
        have hbound :
            ((st.filter (fun t => decide (u - 60 < t))) ++ [u]).countP
              (inSpan a) ≤ limit := by
          rw [List.countP_append, hone]
          by_cases hspan : inSpan a u = true <;> simp [hspan] <;> omega
        have ihres := ih
          ((st.filter (fun t => decide (u - 60 < t))) ++ [u])
          htimes.of_cons hbound
        rw [List.countP_append, hone] at ihres
        rw [List.countP_cons]
        by_cases hspan : inSpan a u = true <;> simp [hspan] at ihres ⊢ <;> omega

/-- Claim C3: for a key checked against a fixed limit with a non-decreasing
clock, at most limit check_rate_limit calls whose times fall inside any
60-consecutive-second span [a, a + 60) return true, however the calls are
timed. -/
theorem admitted_in_span_le_limit (L : Nat) (times : List ℚ) (a : ℚ)
    (hs : List.Sorted (· ≤ ·) times) :
    (admittedTimes L [] times).countP (inSpan a) ≤ L := by
  have h := admittedTimes_window_aux L a times [] hs (by simp)
  simpa using h

/-- Witness for claim C3 at limit 1, calls at times 0 and 30, span start 0. -/
theorem admitted_in_span_le_limit_witness :
    List.Sorted (· ≤ ·) [(0:ℚ), 30] ∧
    (admittedTimes 1 [] [(0:ℚ), 30]).countP (inSpan 0) ≤ 1 :=
  ⟨by decide, admitted_in_span_le_limit 1 [0, 30] 0 (by decide)⟩

/-- A key distinct from both fixed demo secrets never resolves against the
DEMO_KEYS table. -/
theorem demo_lookup_none (created key : String)
    (h1 : key ≠ demoFreeSecret) (h2 : key ≠ demoProSecret) :
    (DEMO_KEYS created).lookup key = none := by
  have e1 : (key == demoFreeSecret) = false := by simp [h1]
  have e2 : (key == demoProSecret) = false := by simp [h2]
  simp [DEMO_KEYS, List.lookup, e1, e2]

/-- Claim C7: require_api_key fails with the MissingKey exception when no
key is presented, fails with the InvalidKey exception when a presented
(nonempty) string resolves to no stored key, and for the secret returned by
a prior create_api_key call (whose generated secret differs from the demo
secrets and is nonempty) returns exactly the metadata record that call
stored and returned. -/
theorem require_api_key_contract (created : String)
    (st : List (String × KeyData)) (s name tier key keyCreated : String)
    (hs : s ≠ "") (hres : get_key_info created st s = none)
    (hk1 : key ≠ demoFreeSecret) (hk2 : key ≠ demoProSecret)
    (hk0 : key ≠ "") :
    require_api_key created st none = Except.error missingKeyExc ∧
    require_api_key created st (some s) = Except.error invalidKeyExcRequired ∧
    require_api_key created ((create_api_key name tier key keyCreated st).2)
        (some key) =
      Except.ok (create_api_key name tier key keyCreated st).1.2 := by
  refine ⟨rfl, ?_, ?_⟩
  · simp [require_api_key, pythonFalsy, hs, hres]
  · have hd := demo_lookup_none created key hk1 hk2
    simp [require_api_key, pythonFalsy, hk0, get_key_info, hd,
      create_api_key, List.lookup_cons]

/-- Witness for claim C7: empty store, the unresolvable string garbage, and
an issued free-tier key with generated secret ngcm_k. -/
theorem require_api_key_contract_witness :
    ("garbage" ≠ "" ∧ get_key_info "c" [] "garbage" = none ∧
     "ngcm_k" ≠ demoFreeSecret ∧ "ngcm_k" ≠ demoProSecret ∧ "ngcm_k" ≠ "") ∧
    (require_api_key "c" [] none = Except.error missingKeyExc ∧
     require_api_key "c" [] (some "garbage") =
       Except.error invalidKeyExcRequired ∧
     require_api_key "c" ((create_api_key "x" "free" "ngcm_k" "c2" []).2)
         (some "ngcm_k") =
       Except.ok (create_api_key "x" "free" "ngcm_k" "c2" []).1.2) :=
  ⟨⟨by decide, by rfl, by decide, by decide, by decide⟩,
   require_api_key_contract "c" [] "garbage" "x" "free" "ngcm_k" "c2"
     (by decide) (by rfl) (by decide) (by decide) (by decide)⟩

/-- Claim C8: verify_api_key returns the anonymous result, never an error,
when no key is presented; a presented (nonempty) unresolvable key fails
with the InvalidKey exception; a presented key that resolves returns the
matched record as identity. -/
theorem verify_api_key_contract (created : String)
    (st : List (String × KeyData)) (s₁ s₂ : String) (ki : KeyData)
    (h1 : s₁ ≠ "") (h2 : get_key_info created st s₁ = none)
    (h3 : s₂ ≠ "") (h4 : get_key_info created st s₂ = some ki) :
    verify_api_key created st none = Except.ok none ∧
    verify_api_key created st (some s₁) =
      Except.error invalidKeyExcOptional ∧
    verify_api_key created st (some s₂) = Except.ok (some ki) := by
  refine ⟨rfl, ?_, ?_⟩
  · simp [verify_api_key, pythonFalsy, h1, h2]
  · simp [verify_api_key, pythonFalsy, h3, h4]

/-- Witness for claim C8: empty store, the unresolvable string garbage, and
the free demo key resolving to its pre-seeded record. -/
theorem verify_api_key_contract_witness :
    ("garbage" ≠ "" ∧ get_key_info "c" [] "garbage" = none ∧
     demoFreeSecret ≠ "" ∧
     get_key_info "c" [] demoFreeSecret =
       some { name := "Demo Free User", tier := "free", rate_limit := 10,
              created := "c", requests_today := none,
              last_request := none } ) ∧
    (verify_api_key "c" [] none = Except.ok none ∧
     verify_api_key "c" [] (some "garbage") =
       Except.error invalidKeyExcOptional ∧
     verify_api_key "c" [] (some demoFreeSecret) =
       Except.ok (some { name := "Demo Free User", tier := "free",
                         rate_limit := 10, created := "c",
                         requests_today := none, last_request := none })) :=
  ⟨⟨by decide, by rfl, by decide, by rfl⟩,
   verify_api_key_contract "c" [] "garbage" demoFreeSecret
     { name := "Demo Free User", tier := "free", rate_limit := 10,
       created := "c", requests_today := none, last_request := none }
     (by decide) (by rfl) (by decide) (by rfl)⟩

/-- Claim C9: the plaintext secret is observable only in the return value
of create_api_key. For an issued key, the returned pair carries the secret
alongside the metadata, but the stored record — the one get_key_info
returns for the issued secret — equals issuedKeyData, a record computed
from owner name, tier and creation time alone, with no field derived from
the secret. For each demo key, get_key_info returns the pre-seeded record
in every store state, and no field of that record mentions the demo secret:
its name and tier are fixed constants distinct from the secret, its created
field is the module-load timestamp (an input independent of the secret),
and its remaining fields hold numbers or nothing. -/
theorem stored_metadata_contains_no_secret (name tier key created : String)
    (st : List (String × KeyData))
    (hk1 : key ≠ demoFreeSecret) (hk2 : key ≠ demoProSecret) :
    ((create_api_key name tier key created st).1.1 = key ∧
     (create_api_key name tier key created st).1.2 =
       issuedKeyData name tier created ∧
     get_key_info created ((create_api_key name tier key created st).2) key =
       some (issuedKeyData name tier created)) ∧
    (get_key_info created st demoFreeSecret =
       some { name := "Demo Free User", tier := "free", rate_limit := 10,
              created := created, requests_today := none,
              last_request := none } ∧
     get_key_info created st demoProSecret =
       some { name := "Demo Pro User", tier := "pro", rate_limit := 100,
              created := created, requests_today := none,
              last_request := none } ∧
     (created ≠ demoFreeSecret →
       ¬ mentionsSecret
           { name := "Demo Free User", tier := "free", rate_limit := 10,
             created := created, requests_today := none,
             last_request := none }
           demoFreeSecret) ∧
     (created ≠ demoProSecret →
       ¬ mentionsSecret
           { name := "Demo Pro User", tier := "pro", rate_limit := 100,
             created := created, requests_today := none,
             last_request := none }
           demoProSecret)) := by
  refine ⟨⟨rfl, rfl, ?_⟩, rfl, rfl, ?_, ?_⟩
  · have hd := demo_lookup_none created key hk1 hk2
    simp [get_key_info, hd, create_api_key, issuedKeyData, List.lookup_cons]
  · intro hc h
    rcases h with h | h | h | h
    · exact absurd (show "Demo Free User" = demoFreeSecret from h) (by decide)
    · exact absurd (show "free" = demoFreeSecret from h) (by decide)
    · exact hc h
    · exact Option.noConfusion
        (show (none : Option (Option String)) =
          some (some demoFreeSecret) from h)
  · intro hc h
    rcases h with h | h | h | h
    · exact absurd (show "Demo Pro User" = demoProSecret from h) (by decide)
    · exact absurd (show "pro" = demoProSecret from h) (by decide)
    · exact hc h
    · exact Option.noConfusion
        (show (none : Option (Option String)) =
          some (some demoProSecret) from h)

/-- Witness for claim C9: issuing a starter key with secret ngcm_w over the
empty store, created at the timestamp string c. -/
theorem stored_metadata_contains_no_secret_witness :
    ("ngcm_w" ≠ demoFreeSecret ∧ "ngcm_w" ≠ demoProSecret) ∧
    (((create_api_key "alice" "starter" "ngcm_w" "c" []).1.1 = "ngcm_w" ∧
      (create_api_key "alice" "starter" "ngcm_w" "c" []).1.2 =
        issuedKeyData "alice" "starter" "c" ∧
      get_key_info "c" ((create_api_key "alice" "starter" "ngcm_w" "c" []).2)
          "ngcm_w" =
        some (issuedKeyData "alice" "starter" "c")) ∧
     (get_key_info "c" [] demoFreeSecret =
        some { name := "Demo Free User", tier := "free", rate_limit := 10,
               created := "c", requests_today := none,
               last_request := none } ∧
      get_key_info "c" [] demoProSecret =
        some { name := "Demo Pro User", tier := "pro", rate_limit := 100,
               created := "c", requests_today := none,
               last_request := none } ∧
      ("c" ≠ demoFreeSecret →
        ¬ mentionsSecret
            { name := "Demo Free User", tier := "free", rate_limit := 10,
              created := "c", requests_today := none, last_request := none }
            demoFreeSecret) ∧
      ("c" ≠ demoProSecret →
        ¬ mentionsSecret
            { name := "Demo Pro User", tier := "pro", rate_limit := 100,
              created := "c", requests_today := none, last_request := none }
            demoProSecret))) :=
  ⟨⟨by decide, by decide⟩,
   stored_metadata_contains_no_secret "alice" "starter" "ngcm_w" "c" []
     (by decide) (by decide)⟩

/-- Claim C10: an empty-string presented key is treated as absent, not as an
invalid credential: verify_api_key returns the anonymous result for the
presented value "", and require_api_key fails for "" with the MissingKey
exception, which differs from the InvalidKey exception. -/
theorem empty_key_treated_as_absent (created : String)
    (st : List (String × KeyData)) :
    verify_api_key created st (some "") = Except.ok none ∧
    require_api_key created st (some "") = Except.error missingKeyExc ∧
    missingKeyExc ≠ invalidKeyExcRequired := by
  refine ⟨rfl, rfl, ?_⟩
  decide

end AuthModel
